import Mathlib

/-!
Verification of the Chimera installer (`chimera.py`, with the near-duplicate
iteration `main.py` where a claim depends on it) against its design
specification.  The Python source is shallowly embedded: pure computations
become Lean functions, and the effectful pipeline becomes an explicit
trace-of-events semantics (every external command issued and every file
written is an `Event`; an exception propagating out of a stage is `ok = false`
on the stage's `Out`).
-/

namespace Chimera

/-- `MOUNT_POINT = "/mnt/chimera_target"` (chimera.py line 17). -/
def MOUNT_POINT : String := "/mnt/chimera_target"

/-! ## Small string helpers used by the embedding -/

/-- Decimal digit list to a natural number, as Python `int` parses a digit
string (most significant first). -/
def digitsToNat (ds : List Char) : Nat :=
  ds.foldl (fun acc c => acc * 10 + (c.toNat - 48)) 0

/-- `needle` occurs as a contiguous sublist of `hay` (Python's `in` on
strings). -/
def listContainsSub (hay needle : List Char) : Bool :=
  match hay with
  | [] => needle = []
  | _ :: t => needle.isPrefixOf hay || listContainsSub t needle

/-- Python `needle in hay` for strings. -/
def strContains (hay needle : String) : Bool :=
  listContainsSub hay.data needle.data

/-! ## C1: the whole-disk partition plan (chimera.py `_auto_partition_disk`,
lines 192-226)

The swap size is computed by
`size = self.args.swap.upper(); mult = 1024 if "G" in size else 1;`
`mb_size = int(''.join(filter(str.isdigit, size))) * mult`.
`int('')` raises `ValueError`, so a swap string without any digit aborts:
the parse is `Option`-valued. -/

/-- ASCII upper-casing of one character, as Python `str.upper` acts on the
ASCII inputs at hand. -/
def pyUpperChar (c : Char) : Char :=
  if 97 ≤ c.toNat ∧ c.toNat ≤ 122 then Char.ofNat (c.toNat - 32) else c

/-- Swap size in MiB, as computed at chimera.py lines 203-205. -/
def autoSwapMiB (s : String) : Option Nat :=
  let up := s.data.map pyUpperChar
  let digits := up.filter Char.isDigit
  if digits.isEmpty then none
  else some (digitsToNat digits * (if up.contains 'G' then 1024 else 1))

/-- Offsets handed to `parted mkpart`, rendered as chimera.py renders them. -/
def miB (n : Nat) : String := toString n ++ "MiB"

/-! ## C2/C3: argument validation

chimera.py lines 503-504:
`if not args.disk and not (args.boot and args.rootfs): sys.exit(...)`.
`argparse` yields `None` for an absent option, embedded as `Option String`.
There is no other validation of the disk/boot/rootfs combination anywhere in
chimera.py: in particular no check that boot ≠ rootfs, and no rejection of
`--disk` given together with `--boot`/`--rootfs`. -/

/-- `true` iff chimera.py's `main` proceeds past argument validation. -/
def chimeraArgsValid (disk boot rootfs : Option String) : Bool :=
  disk.isSome || (boot.isSome && rootfs.isSome)

/-- main.py lines 370-375 build an `argparse` mutually-exclusive group
(`required=True`) containing only `--disk`, and then nest `--boot`/`--rootfs`
inside an *argument group* added to that mutually-exclusive group.  Nesting an
argument group inside a mutually-exclusive group is broken (and deprecated) in
`argparse`: the nested options are not registered in the exclusive group, so
the parser demands `--disk` always ("one of the arguments --disk is
required") and never enforces exclusion against `--boot`/`--rootfs`.  Hence
main.py's parser accepts a command line exactly when `--disk` is present; the
follow-up check at line 389 (`if not args.disk and (not args.boot or not
args.rootfs)`) is unreachable with `args.disk` absent. -/
def mainPyParseAccepts (disk _boot _rootfs : Option String) : Bool :=
  disk.isSome

/-! ## C8: chroot command rendering (chimera.py `run_cmd`, lines 33-44)

When `chroot=True` and the command is a list, chimera.py renders
`cmd_str = " ".join(shlex.quote(arg) for arg in cmd)` and executes
`[chroot-helper, MOUNT_POINT, "/bin/sh", "-c", cmd_str]`.  When the command is
already a string it is passed to `/bin/sh -c` verbatim.  We embed CPython's
`shlex.quote` and a POSIX-shell lexer for the fragment of the language the
quoted output (and the injection counterexample) lives in; the lexer answers
`none` on any construct outside that fragment (expansions, globbing,
redirections, ...), so every `some` answer is a faithful parse. -/

/-- Codepoints used below: 32 space, 34 `"`, 36 `$`, 39 `'`, 59 `;`,
92 `\`, 96 backtick, 124 `|`. -/
def spc : Char := Char.ofNat 32

def sq : Char := Char.ofNat 39

def dquo : Char := Char.ofNat 34

/-- The character class CPython's `shlex.quote` leaves unquoted: the
complement of `_find_unsafe` (ASCII `\w` plus `@ % + = : , . - ` and the
slash), i.e. letters, digits, underscore and those punctuation marks. -/
def isShSafe (c : Char) : Bool :=
  let n := c.toNat
  (65 ≤ n && n ≤ 90) || (97 ≤ n && n ≤ 122) || (48 ≤ n && n ≤ 57) ||
  n = 95 || n = 64 || n = 37 || n = 43 || n = 61 || n = 58 || n = 44 ||
  n = 46 || n = 47 || n = 45

/-- `s.replace("'", "'\"'\"'")` — the body of a single-quoted shell string,
with each embedded single quote spliced out through a double-quoted one. -/
def escSq : List Char → List Char
  | [] => []
  | c :: cs =>
      if c.toNat = 39 then sq :: dquo :: sq :: dquo :: sq :: escSq cs
      else c :: escSq cs

/-- CPython `shlex.quote` on the character list of the argument. -/
def shQuoteL (s : List Char) : List Char :=
  if s.isEmpty then [sq, sq]
  else if s.all isShSafe then s
  else sq :: (escSq s ++ [sq])

/-- `" ".join(...)` over already-quoted arguments. -/
def shJoinL : List (List Char) → List Char
  | [] => []
  | [a] => shQuoteL a
  | a :: xs => shQuoteL a ++ spc :: shJoinL xs

/-- `" ".join(shlex.quote(arg) for arg in cmd)` — the `/bin/sh -c` line built
by `run_cmd` for a chroot-scoped argument vector (chimera.py line 37). -/
def shJoin (argv : List String) : String :=
  String.mk (shJoinL (argv.map String.data))

/-- Tokens of a simple shell command line: words, `;`, `|`. -/
inductive ShTok where
  | word (w : List Char)
  | semi
  | pipe
deriving DecidableEq, Repr

/-- Lexer state: between words, inside an unquoted word, inside single
quotes, inside double quotes. -/
inductive LexSt where
  | out
  | word
  | insq
  | indq
deriving DecidableEq, Repr

/-- POSIX-shell field splitting for the fragment at hand.  `acc` is the word
accumulated so far (quoted and unquoted pieces concatenate into one word).
Any unquoted character with further shell meaning (`$`, backtick, `\`, `&`,
`(`, `)`, `<`, `>`, `*`, `?`, `~`, `#`, ...) is outside the modelled fragment
and yields `none`; inside double quotes `$`, backtick and `\` likewise yield
`none`.  An unterminated quote yields `none` (sh reports a syntax error). -/
def shLex : LexSt → List Char → List Char → Option (List ShTok)
  | .out, _, [] => some []
  | .word, acc, [] => some [.word acc]
  | .insq, _, [] => none
  | .indq, _, [] => none
  | .out, _, c :: cs =>
      if c.toNat = 32 then shLex .out [] cs
      else if c.toNat = 59 then (shLex .out [] cs).map (fun ts => .semi :: ts)
      else if c.toNat = 124 then (shLex .out [] cs).map (fun ts => .pipe :: ts)
      else if c.toNat = 39 then shLex .insq [] cs
      else if c.toNat = 34 then shLex .indq [] cs
      else if isShSafe c then shLex .word [c] cs
      else none
  | .word, acc, c :: cs =>
      if c.toNat = 32 then (shLex .out [] cs).map (fun ts => .word acc :: ts)
      else if c.toNat = 59 then
        (shLex .out [] cs).map (fun ts => .word acc :: .semi :: ts)
      else if c.toNat = 124 then
        (shLex .out [] cs).map (fun ts => .word acc :: .pipe :: ts)
      else if c.toNat = 39 then shLex .insq acc cs
      else if c.toNat = 34 then shLex .indq acc cs
      else if isShSafe c then shLex .word (acc ++ [c]) cs
      else none
  | .insq, acc, c :: cs =>
      if c.toNat = 39 then shLex .word acc cs
      else shLex .insq (acc ++ [c]) cs
  | .indq, acc, c :: cs =>
      if c.toNat = 34 then shLex .word acc cs
      else if c.toNat = 36 ∨ c.toNat = 96 ∨ c.toNat = 92 then none
      else shLex .indq (acc ++ [c]) cs

/-- Tokenize a full `/bin/sh -c` line. -/
def shTokenize (s : List Char) : Option (List ShTok) :=
  shLex .out [] s

/-- Number of `;` separators in a token stream: a stream with `n` separators
is `n + 1` shell commands run in sequence. -/
def semiCount (ts : List ShTok) : Nat :=
  ts.countP (fun t => t = ShTok.semi)

/-! ## The pipeline as a trace of external effects

Every externally visible action of chimera.py is an `Event`: a host command
(`subprocess.run` on an argument vector), a chroot-scoped `/bin/sh -c` line,
a file written inside the target, a host file copy / chmod / removal, or the
`os.system("clear")` call.  Logging, `time.sleep` and `os.makedirs` of the
mount directories have no externally visible effect on disks/targets and are
not recorded.  A stage's result `Out` carries its emitted events plus `ok`:
`ok = false` means an exception (or `sys.exit`) escaped the stage, so the
orchestrator short-circuits to cleanup. -/

inductive Event where
  | host (argv : List String)
  | chroot (line : String)
  | fwrite (path content : String)
  | copyFile (src dst : String)
  | chmodFile (path : String)
  | removeFile (path : String)
  | sysClear
deriving DecidableEq, Repr

structure Out where
  events : List Event
  ok : Bool
deriving DecidableEq, Repr

/-- Sequential composition: if the first part raised, the second never runs
(its events do not happen). -/
def Out.seq (a b : Out) : Out :=
  if a.ok then ⟨a.events ++ b.events, b.ok⟩ else a

/-- A stage that does nothing observable and succeeds. -/
def Out.skip : Out := ⟨[], true⟩

/-- The installer's command-line arguments (chimera.py lines 478-496);
`argparse` yields `none` for an absent option. `run` is the `--run`
post-install command. -/
structure Args where
  disk : Option String
  boot : Option String
  rootfs : Option String
  swap : Option String
  target : String
  online : Bool
  init : String
  profile : String
  user : Option String
  passwd : Option String
  run : Option String
  timezone : Option String
  debug : Bool
  iAmVeryStupid : Bool

/-- Everything the pipeline observes from the outside world: firmware mode,
the confirmation prompt's answer, network state, which helper tools are on
the host, each external command's success, and the target-filesystem contents
that chimera.py reads back (UUIDs, os-release, grub config, mkinitcpio
presets...). -/
structure Env where
  uefi : Bool
  userInput : String
  connected : Bool
  connectedRetry : Bool
  hasArchChroot : Bool
  hasNmtui : Bool
  hasGenfstab : Bool
  hostOk : List String → Bool
  chrootOk : String → Bool
  resolvConfOk : Bool
  genfstabOut : String
  uuidOf : String → String
  detectedDisk : Option String
  tzInTarget : Bool
  kernelSrc : Option String
  presetDirExists : Bool
  presetStems : List (String × String)
  mkinitcpioConf : Option String
  archisoDropIn : Bool
  grubDefaultExists : Bool
  osReleaseLines : Option (List String)
  grubLines : List String
  targetHasPacman : Bool
  targetHasApt : Bool

/-- ASCII lower-casing of one character (Python `str.lower` on ASCII). -/
def pyLowerChar (c : Char) : Char :=
  if 65 ≤ c.toNat ∧ c.toNat ≤ 90 then Char.ofNat (c.toNat + 32) else c

/-- Python `str.lower` for the ASCII identifiers at hand. -/
def pyLower (s : String) : String := String.mk (s.data.map pyLowerChar)

/-- `self.target_os = args.target.lower()` (chimera.py line 83). -/
def targetOs (a : Args) : String := pyLower a.target

/-- Python `str.capitalize`: first character upper, rest lower. -/
def pyCapitalize (s : String) : String :=
  match s.data with
  | [] => ""
  | c :: cs => String.mk (pyUpperChar c :: cs.map pyLowerChar)

/-- Python `str.strip()` (both-ends whitespace strip). -/
def pyStrip (s : String) : String :=
  String.mk (((s.data.dropWhile Char.isWhitespace).reverse.dropWhile
    Char.isWhitespace).reverse)

/-- Python `s.startswith(p)`. -/
def strStartsWith (s p : String) : Bool := p.data.isPrefixOf s.data

/-- Python `str.replace` (all occurrences, left to right). -/
def replaceSubL (hay needle repl : List Char) : List Char :=
  match hay with
  | [] => []
  | c :: t =>
      if needle ≠ [] ∧ needle.isPrefixOf (c :: t) then
        repl ++ replaceSubL ((c :: t).drop needle.length) needle repl
      else c :: replaceSubL t needle repl
termination_by hay.length
decreasing_by
  · simp only [List.length_drop]
    rename_i h
    cases needle with
    | nil => exact absurd rfl h.1
    | cons x xs => simp; omega
  · simp

/-- Python `str.replace` on strings. -/
def pyReplace (s needle repl : String) : String :=
  String.mk (replaceSubL s.data needle.data repl.data)

/-- Python `str.splitlines` (split at newlines, no trailing empty line). -/
def splitNl : List Char → List (List Char)
  | [] => [[]]
  | c :: cs =>
      if c.toNat = 10 then [] :: splitNl cs
      else
        match splitNl cs with
        | [] => [[c]]
        | l :: ls => (c :: l) :: ls

/-- Python `str.splitlines` on strings. -/
def pySplitlines (s : String) : List String :=
  let parts := splitNl s.data
  (if parts.getLast? = some [] then parts.dropLast else parts).map String.mk

/-- `"\n".join(lines)`. -/
def joinNlL : List (List Char) → List Char
  | [] => []
  | [x] => x
  | x :: xs => x ++ Char.ofNat 10 :: joinNlL xs

/-- `"\n".join(lines)` on strings. -/
def joinNl (xs : List String) : String := String.mk (joinNlL (xs.map String.data))

/-! ### The Command Executor (`run_cmd`, chimera.py lines 33-63)

`run_cmd` raises exactly when the command fails, `check` holds and
`ignore_error` does not (the re-raise at line 62 sits inside
`if not ignore_error`); with `check=False`, `subprocess.run` never raises.
For chroot commands an argument vector is first rendered through
`shJoin`, a plain string is passed to `/bin/sh -c` verbatim. -/

def runHost (e : Env) (argv : List String) (check ignoreError : Bool) : Out :=
  ⟨[.host argv], e.hostOk argv || !check || ignoreError⟩

def runChrootList (e : Env) (argv : List String) (check ignoreError : Bool) : Out :=
  ⟨[.chroot (shJoin argv)], e.chrootOk (shJoin argv) || !check || ignoreError⟩

def runChrootStr (e : Env) (line : String) (check ignoreError : Bool) : Out :=
  ⟨[.chroot line], e.chrootOk line || !check || ignoreError⟩

/-! ### Stages of `ChimeraInstaller.run` (chimera.py lines 102-125) -/

/-- `welcome` (lines 127-147): clears the screen; in debug mode also runs
`lsblk`. -/
def welcome (a : Args) : Out :=
  ⟨.sysClear :: (if a.debug then [.host ["lsblk"]] else []), true⟩

/-- `safety_check` (lines 149-160): skipped under `--i-am-very-stupid`;
otherwise `sys.exit` unless the user typed exactly `YES`. -/
def safetyCheck (a : Args) (e : Env) : Out :=
  if a.iAmVeryStupid then Out.skip else ⟨[], e.userInput == "YES"⟩

/-- `ensure_network_logic` (lines 162-167). -/
def ensureNetworkLogic (a : Args) (e : Env) : Out :=
  if targetOs a == "gentoo" || a.online then
    if e.connected then Out.skip
    else ⟨if e.hasNmtui then [.host ["nmtui"]] else [], e.connectedRetry⟩
  else Out.skip

/-- `self.disk` (line 84): `--disk` if given, else the parent disk of the
root partition as reported by `lsblk -no pkname` (`none` if that fails). -/
def selfDisk (a : Args) (e : Env) : Option String :=
  match a.disk with
  | some d => some d
  | none => e.detectedDisk

/-- Partition-name stem (line 212): NVMe/eMMC device names get a `p` infix
before the partition number. -/
def partStem (disk : String) : String :=
  if strStartsWith disk "/dev/nvme" || strStartsWith disk "/dev/mmc" then
    disk ++ "p"
  else disk

/-- The partition-path reassignment `_auto_partition_disk` performs on
`self.args` (lines 212-219); in manual mode the arguments are untouched. -/
def resolvedArgs (a : Args) : Args :=
  match a.disk with
  | none => a
  | some d =>
      let stem := partStem d
      if a.swap.isSome then
        { a with boot := some (stem ++ "1"), swap := some (stem ++ "2"),
                 rootfs := some (stem ++ "3") }
      else
        { a with boot := some (stem ++ "1"), rootfs := some (stem ++ "2") }

/-- The swap `mkpart` of `_auto_partition_disk` (lines 202-208): nothing
when no swap was requested, a `ValueError` crash when the size has no digit,
otherwise one `mkpart` ending at `513+S MiB`; the second component is
`current_end` for the root partition. -/
def swapMkpart (a : Args) (e : Env) (d : String) : Out × String :=
  match a.swap with
  | none => (Out.skip, "513MiB")
  | some s =>
      match autoSwapMiB s with
      | none => (⟨[], false⟩, "513MiB")
      | some n =>
          (runHost e ["parted", "-s", d, "mkpart", "primary", "513MiB", miB (513 + n)]
            true false, miB (513 + n))

/-- `_auto_partition_disk` (lines 192-226), command part.  `d` is
`self.disk` (= `args.disk` in auto mode). -/
def autoPartitionDisk (a : Args) (e : Env) (d : String) : Out :=
  let labelType := if e.uefi then "gpt" else "msdos"
  let o3 :=
    ((runHost e ["wipefs", "--all", d] true false).seq
      (runHost e ["parted", "-s", d, "mklabel", labelType] true false)).seq
      (runHost e ["parted", "-s", d, "mkpart", "primary", "1MiB", "513MiB"] true false)
  let o5 := (o3.seq (swapMkpart a e d).1).seq
    (runHost e ["parted", "-s", d, "mkpart", "primary", (swapMkpart a e d).2, "100%"]
      true false)
  let flag := if e.uefi then "esp" else "boot"
  (o5.seq (runHost e ["parted", "-s", d, "set", "1", flag, "on"] true false)).seq
    (runHost e ["partprobe", d] true false)

/-- `partition_handler` (lines 169-190): unmount/swapoff, auto-partition in
whole-disk mode, then format and mount the (possibly reassigned) root, boot
and swap paths.  A `None` root path would crash `subprocess` (TypeError). -/
def partitionHandler (a : Args) (e : Env) : Out :=
  let o2 := (runHost e ["umount", "-R", MOUNT_POINT] false true).seq
    (runHost e ["swapoff", "-a"] false true)
  let o3 := match a.disk with
    | some d => o2.seq (autoPartitionDisk a e d)
    | none => o2
  let ra := resolvedArgs a
  match ra.rootfs with
  | none => o3.seq ⟨[], false⟩
  | some r =>
      let o5 := (o3.seq (runHost e ["mkfs.ext4", "-F", r] true false)).seq
        (runHost e ["mount", r, MOUNT_POINT] true false)
      let o6 := match ra.boot with
        | none => o5
        | some b =>
            let path := if e.uefi then MOUNT_POINT ++ "/boot/efi"
                        else MOUNT_POINT ++ "/boot"
            let fmt := if e.uefi then runHost e ["mkfs.vfat", "-F32", b] true false
                       else runHost e ["mkfs.ext4", "-F", b] true false
            (o5.seq fmt).seq (runHost e ["mount", b, path] true false)
      match ra.swap with
      | none => o6
      | some sw =>
          (o6.seq (runHost e ["mkswap", sw] true false)).seq
            (runHost e ["swapon", sw] true false)

/-- `DEBIAN_RELEASE = "trixie"` (line 18). -/
def DEBIAN_RELEASE : String := "trixie"

/-- rsync exclusion list (lines 239-241). -/
def rsyncExcludes : List String :=
  ["--exclude=/proc/*", "--exclude=/sys/*", "--exclude=/dev/*",
   "--exclude=/run/*", "--exclude=/tmp/*", "--exclude=/mnt/*",
   "--exclude=" ++ MOUNT_POINT ++ "/*"]

/-- Base package set for pacstrap (lines 246-247). -/
def pacstrapPkgs (a : Args) : List String :=
  let base := ["base", "linux", "linux-firmware", "base-devel", "nano",
               "networkmanager", "grub", "efibootmgr", "sudo"]
  if a.profile == "desktop" then
    base ++ ["plasma-meta", "konsole", "dolphin", "sddm"]
  else base

/-- `_install_arch_pacstrap` (lines 244-250): pacstrap, then fstab from
`genfstab` output (`subprocess.run` without `check`, never raises). -/
def installArchPacstrap (a : Args) (e : Env) : Out :=
  (runHost e (["pacstrap", "-K", MOUNT_POINT] ++ pacstrapPkgs a) true false).seq
    ⟨[.host ["genfstab", "-U", MOUNT_POINT],
      .fwrite (MOUNT_POINT ++ "/etc/fstab") e.genfstabOut], true⟩

/-- Manually generated fstab content, chimera.py variant (lines 410-418):
note the root UUID is interpolated even when `lsblk` resolved nothing (empty
string). -/
def chimeraManualFstab (rootfs : String) (boot : Option String) (e : Env) : String :=
  "UUID=" ++ e.uuidOf rootfs ++ " / ext4 defaults 0 1\n" ++
    match boot with
    | none => ""
    | some b =>
        "UUID=" ++ e.uuidOf b ++ " " ++
          (if e.uefi then "/boot/efi" else "/boot") ++ " " ++
          (if e.uefi then "vfat" else "ext4") ++ " defaults 0 2\n"

/-- `_gen_fstab`, chimera.py variant (lines 405-418). -/
def genFstabChimera (a : Args) (e : Env) : Out :=
  if e.hasGenfstab then
    ⟨[.host ["genfstab", "-U", MOUNT_POINT],
      .fwrite (MOUNT_POINT ++ "/etc/fstab") e.genfstabOut], true⟩
  else
    match a.rootfs with
    | none => ⟨[], false⟩
    | some r =>
        ⟨[.fwrite (MOUNT_POINT ++ "/etc/fstab") (chimeraManualFstab r a.boot e)],
          true⟩

/-- `/etc/apt/sources.list` content written for Debian (lines 256-259). -/
def debianSources : String :=
  "deb http://deb.debian.org/debian " ++ DEBIAN_RELEASE ++
    " main contrib non-free-firmware\n" ++
  "deb http://deb.debian.org/debian-security " ++ DEBIAN_RELEASE ++
    "-security main contrib non-free-firmware\n" ++
  "deb http://deb.debian.org/debian " ++ DEBIAN_RELEASE ++
    "-updates main contrib non-free-firmware\n"

/-- `_install_debian_debootstrap` (lines 252-259). -/
def installDebianDebootstrap (a : Args) (e : Env) : Out :=
  ((runHost e ["debootstrap", "--arch", "amd64", DEBIAN_RELEASE, MOUNT_POINT,
      "http://deb.debian.org/debian"] true false).seq
    (genFstabChimera a e)).seq
    ⟨[.fwrite (MOUNT_POINT ++ "/etc/apt/sources.list") debianSources], true⟩

/-- `install_base` (lines 228-242); `a` is the already-resolved argument
record.  The rsync clone uses `subprocess.run(..., check=True)` directly. -/
def installBase (a : Args) (e : Env) : Out :=
  if targetOs a == "arch" && a.online then installArchPacstrap a e
  else if targetOs a == "debian" && a.online then installDebianDebootstrap a e
  else if targetOs a == "gentoo" then Out.skip
  else
    let argv := ["rsync", "-axHAWXS", "--numeric-ids", "--info=progress2"] ++
      rsyncExcludes ++ ["/", MOUNT_POINT]
    ⟨[.host argv], e.hostOk argv⟩

/-- `setup_chroot_mounts` (lines 261-269): no-op when `arch-chroot` exists;
otherwise rbind /dev /proc /sys (failures ignored) and copy resolv.conf
(`shutil.copy` raises if the host file is unreadable). -/
def setupChrootMounts (e : Env) : Out :=
  if e.hasArchChroot then Out.skip
  else
    ⟨(["dev", "proc", "sys"].map (fun m =>
        [Event.host ["mount", "--rbind", "/" ++ m, MOUNT_POINT ++ "/" ++ m],
         Event.host ["mount", "--make-rslave", MOUNT_POINT ++ "/" ++ m]])).flatten ++
      [.copyFile "/etc/resolv.conf" (MOUNT_POINT ++ "/etc/resolv.conf")],
      e.resolvConfOk⟩

/-- The conditional call of `setup_chroot_mounts` in `run` (lines 109-111). -/
def chrootMountsStage (a : Args) (e : Env) : Out :=
  if !(targetOs a == "arch" || targetOs a == "debian") || !a.online then
    if !e.hasArchChroot then setupChrootMounts e else Out.skip
  else Out.skip

/-- Path of the hostname file written inside the target (line 275). -/
def hostnamePath : String := MOUNT_POINT ++ "/etc/hostname"

/-- `/etc/mkinitcpio.d` inside the target (line 316). -/
def presetDir : String := MOUNT_POINT ++ "/etc/mkinitcpio.d"

/-- The standard hook list substituted for archiso hooks (line 330). -/
def stdHooks : String :=
  "HOOKS=(base udev autodetect modconf kms keyboard keymap consolefont block filesystems fsck)"

/-- One line of the mkinitcpio.conf rewrite (lines 333-338). -/
def mungeHooksLine (line : String) : List String :=
  if strStartsWith (pyStrip line) "HOOKS" && strContains line "archiso" then
    ["# " ++ line, stdHooks]
  else [line]

/-- The mkinitcpio.conf rewrite (lines 326-339). -/
def mungeMkinitcpio (c : String) : String :=
  joinNl ((pySplitlines c).map mungeHooksLine).flatten

/-- The offline-kernel block of `configure_system` (lines 294-346): kernel
copy, preset sanitization, HOOKS rewrite, archiso drop-in removal, initramfs
rebuild.  `e.presetStems` holds `(stem, content)` for each
`<presetDir>/<stem>.preset` the glob finds. -/
def offlineKernelBlock (e : Env) : Out :=
  let kdst := MOUNT_POINT ++ "/boot/vmlinuz-linux"
  let k : Out := match e.kernelSrc with
    | some src => ⟨[.copyFile src kdst, .chmodFile kdst], true⟩
    | none => Out.skip
  let presets : Out :=
    if e.presetDirExists then
      ⟨(e.presetStems.map (fun p =>
          if strContains p.2 "archiso.conf" then
            [Event.fwrite (presetDir ++ "/" ++ p.1 ++ ".preset")
              (pyReplace p.2 "/etc/mkinitcpio.conf.d/archiso.conf"
                "/etc/mkinitcpio.conf")]
          else [])).flatten, true⟩
    else Out.skip
  let conf : Out := match e.mkinitcpioConf with
    | none => Out.skip
    | some c =>
        if strContains c "archiso" then
          ⟨[.fwrite (MOUNT_POINT ++ "/etc/mkinitcpio.conf") (mungeMkinitcpio c)],
            true⟩
        else Out.skip
  let dropin : Out :=
    if e.archisoDropIn then
      ⟨[.removeFile (MOUNT_POINT ++ "/etc/mkinitcpio.conf.d/archiso.conf")], true⟩
    else Out.skip
  (((k.seq presets).seq conf).seq dropin).seq
    (runChrootStr e "mkinitcpio -P" true false)

/-- The Blue-Archive-Linux extras of `configure_system` (lines 348-352). -/
def balBlock (e : Env) : Out :=
  (runChrootStr e "systemctl enable sddm" true true).seq
    (runChrootStr e "bash /root/SilentSDDM/install.sh" true false)

/-- The hostname write of `configure_system` (lines 274-276):
`f.write(f"{self.target_os}\n")` into `<target>/etc/hostname`. -/
def hostnameWriteEvent (a : Args) : Event :=
  .fwrite hostnamePath (targetOs a ++ "\n")

/-- The timezone part of `configure_system` (lines 278-287). -/
def tzStage (a : Args) (e : Env) : Out :=
  match a.timezone with
  | none => Out.skip
  | some tz =>
      if e.tzInTarget then
        (runChrootStr e
          ("ln -sf /usr/share/zoneinfo/" ++ tz ++ " /etc/localtime") true false).seq
          (runChrootStr e "hwclock --systohc" true true)
      else Out.skip

/-- The per-target tail of `configure_system` (lines 289-360). -/
def configureBranch (a : Args) (e : Env) : Out :=
  if targetOs a == "arch" || targetOs a == "bal" then
    let l3 :=
      ((runChrootStr e "echo 'en_US.UTF-8 UTF-8' > /etc/locale.gen" true false).seq
        (runChrootStr e "locale-gen" true false)).seq
        (runChrootStr e "systemctl enable NetworkManager" true true)
    let l4 := l3.seq
      (if !a.online || targetOs a == "bal" then offlineKernelBlock e else Out.skip)
    l4.seq (if targetOs a == "bal" then balBlock e else Out.skip)
  else if targetOs a == "debian" then
    let d0 := if !e.hasArchChroot then setupChrootMounts e else Out.skip
    (((d0.seq (runChrootStr e "apt-get update" true false)).seq
      (runChrootStr e
        "apt-get install -y linux-image-amd64 linux-headers-amd64 locales grub-efi-amd64 network-manager sudo"
        true false)).seq
      (runChrootStr e "echo 'en_US.UTF-8 UTF-8' > /etc/locale.gen" true false)).seq
      (runChrootStr e "locale-gen" true false)
  else Out.skip

/-- `configure_system` (lines 271-360): hostname, timezone, then the
per-target branches. -/
def configureSystem (a : Args) (e : Env) : Out :=
  (Out.seq ⟨[hostnameWriteEvent a], true⟩ (tzStage a e)).seq (configureBranch a e)

/-- The `/bin/sh -c` line `setup_users` interpolates the password into
(line 366): `f"echo 'root:{pwd}' | chpasswd"` — the password is NOT quoted. -/
def chpasswdRootLine (pwd : String) : String :=
  "echo 'root:" ++ pwd ++ "' | chpasswd"

/-- Line 379: `f"echo '{user}:{pwd}' | chpasswd"`. -/
def chpasswdUserLine (user pwd : String) : String :=
  "echo '" ++ user ++ ":" ++ pwd ++ "' | chpasswd"

/-- `setup_users` (lines 362-383). -/
def setupUsers (a : Args) (e : Env) : Out :=
  let p1 := match a.passwd with
    | some pwd => runChrootStr e (chpasswdRootLine pwd) true false
    | none => runChrootStr e (chpasswdRootLine "root") true false
  p1.seq (match a.user with
    | none => Out.skip
    | some u =>
        let c1 := runChrootStr e ("useradd -m -G wheel -s /bin/bash " ++ u) true true
        let c2 := c1.seq (match a.passwd with
          | some pwd => runChrootStr e (chpasswdUserLine u pwd) true false
          | none => Out.skip)
        c2.seq (runChrootStr e
          "sed -i 's/^# %wheel ALL=(ALL:ALL) ALL/%wheel ALL=(ALL:ALL) ALL/' /etc/sudoers"
          true true))

/-- `install_bal_extras` (lines 386-398). -/
def installBalExtras (a : Args) (e : Env) : Out :=
  if targetOs a == "bal" && a.online then
    if a.user.isNone then Out.skip
    else
      (runChrootStr e "pacman-key --init" true false).seq
        (runChrootStr e "pacman-key --populate" true false)
  else Out.skip

/-- `run_custom_scripts` (lines 400-403). -/
def runCustomScripts (a : Args) (e : Env) : Out :=
  match a.run with
  | none => Out.skip
  | some c => runChrootStr e c true false

/-- `/etc/default/grub` inside the target (line 424). -/
def grubDefaultPath : String := MOUNT_POINT ++ "/etc/default/grub"

/-- Both-ends strip of one given character (Python `str.strip(ch)`). -/
def pyStripChar (s : List Char) (ch : Char) : List Char :=
  ((s.dropWhile (fun c => c = ch)).reverse.dropWhile (fun c => c = ch)).reverse

/-- `line.split("=", 1)[1].strip().strip('"').strip("'")` (line 435). -/
def prettyNameValue (line : String) : String :=
  let rest := (line.data.dropWhile (fun c => c.toNat ≠ 61)).drop 1
  String.mk (pyStripChar (pyStripChar
    ((rest.dropWhile Char.isWhitespace).reverse.dropWhile Char.isWhitespace).reverse
    dquo) sq)

/-- PRETTY_NAME extraction from os-release (lines 429-437). -/
def prettyNameFrom (lines : List String) (dflt : String) : String :=
  match lines.find? (fun l => strStartsWith l "PRETTY_NAME=") with
  | none => dflt
  | some l => prettyNameValue l

/-- One line of the `/etc/default/grub` rewrite (lines 442-449);
`readlines` keeps the trailing newline on `line`. -/
def editGrubLine (tOs pretty line : String) : String :=
  if strStartsWith (pyStrip line) "GRUB_DISTRIBUTOR=" then
    "GRUB_DISTRIBUTOR='" ++ pretty ++ "'\n"
  else if (tOs == "arch" || tOs == "bal") &&
      strStartsWith (pyStrip line) "GRUB_CMDLINE_LINUX_DEFAULT=" then
    pyReplace (pyReplace line "quiet" "") "  " " "
  else line

/-- The grub-default rewrite of `install_bootloader` (lines 423-451). -/
def grubEditEvents (a : Args) (e : Env) : List Event :=
  if e.grubDefaultExists then
    let dflt := pyCapitalize (targetOs a)
    let pretty := match e.osReleaseLines with
      | none => dflt
      | some ls => prettyNameFrom ls dflt
    [.fwrite grubDefaultPath
      (String.join (e.grubLines.map (editGrubLine (targetOs a) pretty)))]
  else []

/-- The grub-install invocation line `install_bootloader` hands to the
chroot shell (lines 453-467), per target/firmware branch.  When the parent
disk could not be resolved (`self.disk is None`, manual mode), Python still
renders the line: the Debian branch's f-string interpolates `None` as the
word `None`, and in the list branch `shlex.quote(None)` takes `quote`'s
empty-value path and yields `''` — the same rendering as an empty-string
argument, so the fallback is the empty string. -/
def grubInstallLine (a : Args) (e : Env) : String :=
  if targetOs a == "debian" then
    if e.uefi then
      "grub-install --target=x86_64-efi --efi-directory=/boot/efi --bootloader-id=" ++
        targetOs a ++ " --recheck"
    else
      "grub-install --target=i386-pc " ++
        (match selfDisk a e with | some d => d | none => "None")
  else
    let base := ["grub-install", "--target=" ++ (if e.uefi then "x86_64-efi" else "i386-pc"),
                 "--bootloader-id=" ++ targetOs a, "--recheck"]
    if e.uefi then shJoin (base ++ ["--efi-directory=/boot/efi"])
    else shJoin (base ++ [(selfDisk a e).getD ""])

/-- `install_bootloader` (lines 420-468): the grub-default rewrite, then the
grub-install chroot line (issued in every branch — also with an
unresolvable disk, see `grubInstallLine`) and the configuration
regeneration. -/
def installBootloader (a : Args) (e : Env) : Out :=
  let edit : Out := ⟨grubEditEvents a e, true⟩
  if targetOs a == "debian" then
    (edit.seq (runChrootStr e (grubInstallLine a e) true false)).seq
      (runChrootStr e "update-grub" true false)
  else
    (edit.seq (runChrootStr e (grubInstallLine a e) true false)).seq
      (runChrootStr e "grub-mkconfig -o /boot/grub/grub.cfg" true false)

/-- `finalize` (line 470-471). -/
def finalizeStage (e : Env) : Out :=
  runChrootStr e "systemd-machine-id-setup" true true

/-- `cleanup` (lines 473-475): runs in a `finally`, never raises. -/
def cleanupStage (e : Env) : Out :=
  runHost e ["umount", "-R", MOUNT_POINT] false true

/-- The pipeline through `run_custom_scripts` (everything `run` sequences
before `install_bootloader`). -/
def preBootloader (a : Args) (e : Env) : Out :=
  let ra := resolvedArgs a
  (((((((((welcome a).seq (safetyCheck a e)).seq (ensureNetworkLogic a e)).seq
    (partitionHandler a e)).seq (installBase ra e)).seq
    (chrootMountsStage a e)).seq (configureSystem ra e)).seq
    (setupUsers ra e)).seq (installBalExtras ra e)).seq (runCustomScripts ra e)

/-- `run` without the `finally` cleanup. -/
def pipelineOut (a : Args) (e : Env) : Out :=
  ((preBootloader a e).seq (installBootloader (resolvedArgs a) e)).seq
    (finalizeStage e)

/-- The whole of `ChimeraInstaller.run` (lines 102-125): the staged pipeline,
then cleanup unconditionally (`finally`); `ok = false` means the process
exits non-zero (an exception reached the handler, or `sys.exit` from the
safety gate). -/
def runFull (a : Args) (e : Env) : Out :=
  let p := pipelineOut a e
  ⟨p.events ++ (cleanupStage e).events, p.ok⟩

/-! ## main.py variants needed by the claims

main.py is the repository's earlier near-duplicate iteration of the same
installer; two claims depend on behaviour only it implements. -/

/-- `_gen_fstab`, main.py variant (lines 315-333): with `genfstab` present it
is used (`check=True` — a failure raises); otherwise the root UUID is looked
up first and `RuntimeError("Missing Root UUID")` is raised — before anything
is written — when it is empty.  Boot and swap entries are emitted only when
their UUIDs resolve. -/
def genFstabMain (rootfs : String) (boot swap : Option String) (e : Env) : Out :=
  if e.hasGenfstab then
    ⟨[.host ["genfstab", "-U", MOUNT_POINT],
      .fwrite (MOUNT_POINT ++ "/etc/fstab") e.genfstabOut],
      e.hostOk ["genfstab", "-U", MOUNT_POINT]⟩
  else if e.uuidOf rootfs == "" then ⟨[], false⟩
  else
    let bootLine := match boot with
      | none => ""
      | some b =>
          if e.uuidOf b == "" then ""
          else
            "UUID=" ++ e.uuidOf b ++ " " ++
              (if e.uefi then "/boot/efi" else "/boot") ++ " " ++
              (if e.uefi then "vfat" else "ext4") ++ " defaults 0 2\n"
    let swapLine := match swap with
      | none => ""
      | some s =>
          if e.uuidOf s == "" then ""
          else "UUID=" ++ e.uuidOf s ++ " none swap defaults 0 0\n"
    ⟨[.fwrite (MOUNT_POINT ++ "/etc/fstab")
        ("UUID=" ++ e.uuidOf rootfs ++ " / ext4 defaults 0 1\n" ++
          bootLine ++ swapLine)], true⟩

/-- The monotonic one-shot flag of main.py's `ChimeraInstaller.__init__`
(line 69: `self.arch_keyring_initialized = False`). -/
structure SessionState where
  archKeyringInitialized : Bool
deriving DecidableEq, Repr

/-- `_initialize_arch_keyring` (main.py lines 297-302): returns immediately
when the flag is set; otherwise runs the two keyring commands and sets the
flag.  The flag is never written anywhere else, so it is never reset. -/
def initArchKeyring (e : Env) (s : SessionState) : SessionState × Out :=
  if s.archKeyringInitialized then (s, Out.skip)
  else
    (⟨true⟩,
      (runChrootStr e "pacman-key --init" true false).seq
        (runChrootStr e "pacman-key --populate archlinux" true false))

/-- The three call sites of `_initialize_arch_keyring` in main.py:
`configure_system` (line 289), `_emergency_install_kernel` (line 310) and
`_emergency_install_boottools` (line 354). -/
inductive KeyringSite where
  | configureSite
  | kernelSite
  | boottoolsSite
deriving DecidableEq, Repr

/-- The pacman command each call site runs after the keyring guard, and the
apt fallback it runs instead when the target has apt but not pacman. -/
def keyringSitePacmanCmd : KeyringSite → String
  | .configureSite => "pacman -Syu --noconfirm"
  | .kernelSite => "pacman -S --noconfirm linux linux-firmware"
  | .boottoolsSite => "pacman -S --noconfirm grub efibootmgr"

def keyringSiteAptCmd : KeyringSite → String
  | .configureSite => "apt update && apt upgrade -y"
  | .kernelSite => "apt install -y linux-image-amd64"
  | .boottoolsSite => "apt install -y grub-efi-amd64 efibootmgr"

/-- One call site reached during a run: guard-then-command when pacman is in
the target, the apt command when apt is, nothing otherwise. -/
def keyringCallSite (site : KeyringSite) (e : Env) (s : SessionState) :
    SessionState × Out :=
  if e.targetHasPacman then
    let r := initArchKeyring e s
    (r.1, r.2.seq (runChrootStr e (keyringSitePacmanCmd site) true false))
  else if e.targetHasApt then
    (s, runChrootStr e (keyringSiteAptCmd site) true false)
  else (s, Out.skip)

/-- Any sequence of reached call sites, threading the session flag. -/
def runKeyringSites (sites : List KeyringSite) (e : Env) (s : SessionState) :
    SessionState × Out :=
  match sites with
  | [] => (s, Out.skip)
  | site :: rest =>
      let r := keyringCallSite site e s
      let r2 := runKeyringSites rest e r.1
      (r2.1, r.2.seq r2.2)

/-- Occurrences of the keyring-init command in a trace. -/
def initCount (evs : List Event) : Nat :=
  evs.countP (fun ev => ev == Event.chroot "pacman-key --init")

/-! ## Predicates the claims are phrased with -/

/-- A command that writes a partition table, wipes signatures, formats, or
mounts — the actions claim C4 says never happen when the safety gate
refuses. -/
def isDiskTouchingCmd : Event → Bool
  | .host (c :: _) =>
      c == "wipefs" || c == "parted" || c == "mkfs.ext4" || c == "mkfs.vfat" ||
        c == "mkswap" || c == "mount" || c == "swapon"
  | _ => false

/-- A signature-wipe or partition-table-write command (claim C7): `wipefs`,
or any `parted` invocation (`mklabel`/`mkpart`/`set` all go through
`parted`). -/
def isTableCmd : Event → Bool
  | .host (c :: _) => c == "wipefs" || c == "parted"
  | _ => false

/-- The `parted ... mkpart` argument triples issued in a trace, in order. -/
def mkpartArgs (evs : List Event) : List (List String) :=
  evs.filterMap (fun ev => match ev with
    | .host ("parted" :: "-s" :: _ :: "mkpart" :: rest) => some rest
    | _ => none)

/-- The content an event writes to the target's `/etc/hostname`, if any. -/
def hnContentOf : Event → Option String
  | .fwrite p c => if p == hostnamePath then some c else none
  | _ => none

/-- Contents of writes to the target's `/etc/hostname` in a trace. -/
def hostnameWrites (evs : List Event) : List String :=
  evs.filterMap hnContentOf

/-- The event is not a write to the target's `/etc/hostname`. -/
def NotHostnameWrite (ev : Event) : Prop :=
  ∀ p c, ev = Event.fwrite p c → (p == hostnamePath) = false

/-- Any write the event makes to the target's `/etc/hostname` has content
`t`. -/
def HostnameContentOk (t : String) (ev : Event) : Prop :=
  ∀ p c, ev = Event.fwrite p c → (p == hostnamePath) = true → c = t

/-- The full option surface of chimera.py's CLI (lines 480-495). -/
def chimeraCliOptions : List String :=
  ["--disk", "--boot", "--rootfs", "--swap", "--target", "--online", "--init",
   "--profile", "--user", "--passwd", "--run", "--timezone", "--debug",
   "--i-am-very-stupid"]

/-! ## Concrete fixtures used by witnesses and counterexamples -/

/-- A manual-mode request in which `--boot` and `--rootfs` name the same
device. -/
def manualArgs (p : String) : Args :=
  { disk := none, boot := some p, rootfs := some p, swap := none,
    target := "arch", online := false, init := "systemd", profile := "cli",
    user := none, passwd := none, run := none, timezone := none,
    debug := false, iAmVeryStupid := false }

/-- An environment in which every external command succeeds and every
optional tool is present. -/
def allOkEnv : Env :=
  { uefi := true, userInput := "YES", connected := true, connectedRetry := true,
    hasArchChroot := true, hasNmtui := true, hasGenfstab := true,
    hostOk := fun _ => true, chrootOk := fun _ => true, resolvConfOk := true,
    genfstabOut := "", uuidOf := fun _ => "", detectedDisk := some "/dev/sda",
    tzInTarget := true, kernelSrc := none, presetDirExists := false,
    presetStems := [], mkinitcpioConf := none, archisoDropIn := false,
    grubDefaultExists := false, osReleaseLines := none, grubLines := [],
    targetHasPacman := true, targetHasApt := false }

/-- `allOkEnv` but with no `genfstab` on the host (UUIDs already resolve to
nothing there: `uuidOf` is constantly `""`). -/
def noToolsEnv : Env := { allOkEnv with hasGenfstab := false }

/-- A whole-disk request with a 4G swap. -/
def c1Args : Args :=
  { disk := some "/dev/sda", boot := none, rootfs := none, swap := some "4G",
    target := "arch", online := false, init := "systemd", profile := "cli",
    user := none, passwd := none, run := none, timezone := none,
    debug := false, iAmVeryStupid := true }

/-- A manual generic offline request used by the bootloader-failure and
gate-refusal scenarios. -/
def c5Args : Args :=
  { disk := none, boot := some "/dev/sda1", rootfs := some "/dev/sda2",
    swap := none, target := "generic", online := false, init := "systemd",
    profile := "cli", user := none, passwd := none, run := none,
    timezone := none, debug := false, iAmVeryStupid := true }

/-- The `/bin/sh -c` line `install_bootloader` issues for a generic UEFI
target (every argument is shlex-safe, so the join adds no quotes). -/
def genericGrubLine : String :=
  "grub-install --target=x86_64-efi --bootloader-id=generic --recheck --efi-directory=/boot/efi"

/-- `allOkEnv` but grub-install (and only it) fails inside the chroot. -/
def c5Env : Env :=
  { allOkEnv with chrootOk := fun l => !(l == genericGrubLine) }

/-- The gate-refusal scenario: confirmation prompt answered with something
other than the literal token. -/
def c4Args : Args := { c5Args with iAmVeryStupid := false }

def c4Env : Env := { allOkEnv with userInput := "no" }

/-- A password exercising the unquoted interpolation at chimera.py line 366:
closing the single-quoted string, injecting two commands, reopening it. -/
def evilPwd : String := "x'; wipefs --all /dev/sda; echo 'y"

/-! # Theorems -/

/-! ## Generic facts about `Out.seq` -/

theorem Out.seq_mem {ev : Event} {a b : Out} (h : ev ∈ (a.seq b).events) :
    ev ∈ a.events ∨ ev ∈ b.events := by
  unfold Out.seq at h
  split at h
  · exact List.mem_append.mp h
  · exact Or.inl h

theorem Out.seq_of_not_ok {a : Out} (b : Out) (h : a.ok = false) :
    a.seq b = a := by
  simp [Out.seq, h]

theorem Out.seq_ok {a b : Out} : (a.seq b).ok = (a.ok && b.ok) := by
  unfold Out.seq
  split <;> simp_all

theorem Out.seq_events_of_ok {a b : Out} (h : a.ok = true) :
    (a.seq b).events = a.events ++ b.events := by
  simp [Out.seq, h]

theorem forall_mem_seq {P : Event → Prop} {x y : Out}
    (hx : ∀ ev ∈ x.events, P ev) (hy : ∀ ev ∈ y.events, P ev) :
    ∀ ev ∈ (x.seq y).events, P ev := by
  intro ev hev
  rcases Out.seq_mem hev with h | h
  · exact hx ev h
  · exact hy ev h

/-! ## C2 — mode validation -/

/-- C2 (counterexample): a request supplying `--disk` *and* `--boot`/
`--rootfs` is not rejected: chimera.py's validation accepts it, and main.py's
parser accepts it too; moreover main.py rejects the manual combination the
claim says is accepted. -/
theorem c2_counterexample :
    chimeraArgsValid (some "/dev/sda") (some "/dev/sda1") (some "/dev/sda2") = true ∧
    mainPyParseAccepts (some "/dev/sda") (some "/dev/sda1") (some "/dev/sda2") = true ∧
    mainPyParseAccepts none (some "/dev/sda1") (some "/dev/sda2") = false := by
  decide

/-- C2 (amended): chimera.py's validation rejects exactly the requests that
supply neither `--disk` nor both of `--boot` and `--rootfs`; in particular a
request supplying `--disk` together with the manual paths passes validation
(whole-disk mode then wins: `--disk` triggers auto-partitioning, which
overwrites the manual paths). -/
theorem c2_amended (disk boot rootfs : Option String) :
    chimeraArgsValid disk boot rootfs = false ↔
      disk = none ∧ (boot = none ∨ rootfs = none) := by
  cases disk <;> cases boot <;> cases rootfs <;> simp [chimeraArgsValid]

/-! ## C3 — equal boot and root paths -/

/-- C3 (counterexample): the manual request with `--boot` = `--rootfs` =
`/dev/sda1` passes chimera.py's argument validation, and the partition stage
then runs to completion — formatting `/dev/sda1` as ext4 and as FAT32 and
mounting it both at the root mount point and below it — instead of being
rejected. -/
theorem c3_counterexample :
    chimeraArgsValid none (some "/dev/sda1") (some "/dev/sda1") = true ∧
    (partitionHandler (manualArgs "/dev/sda1") allOkEnv).ok = true ∧
    Event.host ["mkfs.ext4", "-F", "/dev/sda1"] ∈
      (partitionHandler (manualArgs "/dev/sda1") allOkEnv).events ∧
    Event.host ["mount", "/dev/sda1", MOUNT_POINT] ∈
      (partitionHandler (manualArgs "/dev/sda1") allOkEnv).events ∧
    Event.host ["mkfs.vfat", "-F32", "/dev/sda1"] ∈
      (partitionHandler (manualArgs "/dev/sda1") allOkEnv).events ∧
    Event.host ["mount", "/dev/sda1", MOUNT_POINT ++ "/boot/efi"] ∈
      (partitionHandler (manualArgs "/dev/sda1") allOkEnv).events := by
  decide

/-- C3 (amended): no equality check exists at any boundary: for every path
`p`, the manual request with boot = rootfs = `p` passes argument validation,
and the partition stage formats `p` and mounts `p` both as root and as boot. -/
theorem c3_amended (p : String) (e : Env)
    (hok : ∀ argv, e.hostOk argv = true) :
    chimeraArgsValid none (some p) (some p) = true ∧
    Event.host ["mkfs.ext4", "-F", p] ∈ (partitionHandler (manualArgs p) e).events ∧
    Event.host ["mount", p, MOUNT_POINT] ∈ (partitionHandler (manualArgs p) e).events ∧
    Event.host ["mount", p,
        if e.uefi then MOUNT_POINT ++ "/boot/efi" else MOUNT_POINT ++ "/boot"] ∈
      (partitionHandler (manualArgs p) e).events := by
  refine ⟨rfl, ?_, ?_, ?_⟩ <;>
    · simp only [partitionHandler, manualArgs, resolvedArgs, runHost, hok,
        Out.seq, Out.skip]
      cases e.uefi <;> simp

/-- C3 (witness): the amended statement at `p = "/dev/sdb3"` in the
all-commands-succeed environment. -/
theorem c3_witness :
    chimeraArgsValid none (some "/dev/sdb3") (some "/dev/sdb3") = true ∧
    Event.host ["mkfs.ext4", "-F", "/dev/sdb3"] ∈
      (partitionHandler (manualArgs "/dev/sdb3") allOkEnv).events ∧
    Event.host ["mount", "/dev/sdb3", MOUNT_POINT] ∈
      (partitionHandler (manualArgs "/dev/sdb3") allOkEnv).events ∧
    Event.host ["mount", "/dev/sdb3",
        if allOkEnv.uefi then MOUNT_POINT ++ "/boot/efi"
        else MOUNT_POINT ++ "/boot"] ∈
      (partitionHandler (manualArgs "/dev/sdb3") allOkEnv).events :=
  c3_amended "/dev/sdb3" allOkEnv (fun _ => rfl)

/-! ## C6 — missing root UUID during manual fstab generation -/

/-- C6 (counterexample): chimera.py's `_gen_fstab`, with `genfstab` absent
and the root UUID unresolvable (empty), does not abort: it succeeds and
writes an fstab whose root line has an empty UUID field. -/
theorem c6_counterexample :
    genFstabChimera (manualArgs "/dev/sda1") noToolsEnv =
      ⟨[.fwrite (MOUNT_POINT ++ "/etc/fstab")
          ("UUID= / ext4 defaults 0 1\n" ++
            "UUID= /boot/efi vfat defaults 0 2\n")], true⟩ := by
  decide

/-- C6 (amended): main.py's `_gen_fstab` does fail hard — with `genfstab`
absent and an unresolvable root UUID it raises before writing anything —
while chimera.py's variant (see the counterexample) writes the fstab with an
empty UUID and continues. -/
theorem c6_amended (rootfs : String) (boot swap : Option String) (e : Env)
    (h1 : e.hasGenfstab = false) (h2 : e.uuidOf rootfs = "") :
    genFstabMain rootfs boot swap e = ⟨[], false⟩ := by
  simp [genFstabMain, h1, h2]

/-- C6 (witness): the amended statement at a concrete device and
environment. -/
theorem c6_witness :
    noToolsEnv.hasGenfstab = false ∧ noToolsEnv.uuidOf "/dev/sda2" = "" ∧
    genFstabMain "/dev/sda2" none none noToolsEnv = ⟨[], false⟩ :=
  ⟨rfl, rfl, c6_amended "/dev/sda2" none none noToolsEnv rfl rfl⟩

/-! ## C9 — keyring initialization at most once per session -/

theorem initCount_seq_le (a b : Out) :
    initCount (a.seq b).events ≤ initCount a.events + initCount b.events := by
  unfold Out.seq
  split
  · simp [initCount, List.countP_append]
  · exact Nat.le_add_right _ _

theorem keyringCallSite_facts (site : KeyringSite) (e : Env) (s : SessionState) :
    initCount (keyringCallSite site e s).2.events ≤
      (if s.archKeyringInitialized || !e.targetHasPacman then 0 else 1) ∧
    (keyringCallSite site e s).1.archKeyringInitialized =
      (s.archKeyringInitialized || e.targetHasPacman) := by
  obtain ⟨f⟩ := s
  unfold keyringCallSite initArchKeyring
  rcases hp : e.targetHasPacman <;> rcases f <;>
    rcases ha : e.targetHasApt <;>
    rcases h1 : e.chrootOk "pacman-key --init" <;>
    rcases h2 : e.chrootOk "pacman-key --populate archlinux" <;>
    cases site <;>
    simp [initCount, Out.seq, Out.skip, runChrootStr, keyringSitePacmanCmd,
      keyringSiteAptCmd, h1, h2]

theorem c9_keyring (sites : List KeyringSite) (e : Env) (s : SessionState) :
    initCount (runKeyringSites sites e s).2.events ≤
      (if s.archKeyringInitialized then 0 else 1) ∧
    (runKeyringSites sites e s).1.archKeyringInitialized =
      (s.archKeyringInitialized || (e.targetHasPacman && !sites.isEmpty)) := by
  induction sites generalizing s with
  | nil => simp [runKeyringSites, initCount, Out.skip]
  | cons site rest ih =>
      obtain ⟨hcount, hflag⟩ := keyringCallSite_facts site e s
      obtain ⟨hcount2, hflag2⟩ := ih (keyringCallSite site e s).1
      constructor
      · refine le_trans (initCount_seq_le _ _) ?_
        rcases hf : s.archKeyringInitialized with _ | _ <;>
          rcases hpac : e.targetHasPacman with _ | _ <;>
          · simp [hf, hpac] at hcount hflag
            simp [hflag] at hcount2
            simp [hf]
            omega
      · show (runKeyringSites rest e (keyringCallSite site e s).1).1.archKeyringInitialized = _
        rw [hflag2, hflag]
        rcases s.archKeyringInitialized <;> rcases e.targetHasPacman <;>
          rcases rest.isEmpty <;> simp

/-- C9: however many keyring call sites are reached in one session, the
keyring-init command runs at most once (never, if the flag is already set),
and the session flag is monotonic — it ends `true` whenever it started
`true` (it is never reset; it flips to `true` exactly when a pacman-target
call site is reached). -/
theorem c9_keyring_once (sites : List KeyringSite) (e : Env) :
    initCount (runKeyringSites sites e ⟨false⟩).2.events ≤ 1 ∧
    ∀ s : SessionState,
      (runKeyringSites sites e s).1.archKeyringInitialized =
        (s.archKeyringInitialized || (e.targetHasPacman && !sites.isEmpty)) := by
  refine ⟨?_, fun s => (c9_keyring sites e s).2⟩
  simpa using (c9_keyring sites e ⟨false⟩).1

/-- C9 (witness): all three call sites reached in one session, every command
succeeding: the init command runs exactly once, and the flag set by an
earlier session stage is still set afterwards. -/
theorem c9_witness :
    initCount (runKeyringSites [.configureSite, .kernelSite, .boottoolsSite]
        allOkEnv ⟨false⟩).2.events ≤ 1 ∧
    (runKeyringSites [.configureSite, .kernelSite, .boottoolsSite]
        allOkEnv ⟨true⟩).1.archKeyringInitialized = true := by
  refine ⟨(c9_keyring_once _ allOkEnv).1, ?_⟩
  rw [(c9_keyring_once [.configureSite, .kernelSite, .boottoolsSite] allOkEnv).2 ⟨true⟩]
  rfl

/-! ## C1 — the whole-disk partition plan -/

/-- C1: in whole-disk mode (all partitioning commands succeeding), the
`parted mkpart` calls issued are exactly boot `[1MiB, 513MiB)`; then, when a
swap size parses to `S` MiB, swap `[513MiB, 513+S MiB)` and root
`[513+S MiB, 100%]` (without swap, root starts at `513MiB`).  The planned
regions are pairwise disjoint with boot first, the `G` suffix means
`×1024 MiB`, and `"4G"` indeed yields swap end `4609MiB`. -/
theorem c1_plan (a : Args) (e : Env) (d : String)
    (hok : ∀ argv, e.hostOk argv = true) (hd : a.disk = some d) :
    (a.swap = none →
      mkpartArgs (partitionHandler a e).events =
        [["primary", "1MiB", "513MiB"], ["primary", "513MiB", "100%"]]) ∧
    (∀ s n, a.swap = some s → autoSwapMiB s = some n →
      mkpartArgs (partitionHandler a e).events =
        [["primary", "1MiB", "513MiB"],
         ["primary", "513MiB", miB (513 + n)],
         ["primary", miB (513 + n), "100%"]]) ∧
    (∀ n x : Nat, ¬(1 ≤ x ∧ x < 513 ∧ 513 ≤ x ∧ x < 513 + n)) ∧
    (∀ n x : Nat, ¬(513 ≤ x ∧ x < 513 + n ∧ 513 + n ≤ x)) ∧
    autoSwapMiB "4G" = some 4096 ∧ 513 + 4096 = 4609 := by
  refine ⟨?_, ?_, ?_, ?_, by decide, rfl⟩
  · intro hsw
    rcases he : e.uefi <;>
      simp [partitionHandler, hd, hsw, he, autoPartitionDisk, swapMkpart,
        resolvedArgs, runHost, hok, Out.seq, Out.skip, mkpartArgs]
  · intro s n hsw hn
    rcases he : e.uefi <;>
      simp [partitionHandler, hd, hsw, hn, he, autoPartitionDisk, swapMkpart,
        resolvedArgs, runHost, hok, Out.seq, Out.skip, mkpartArgs]
  · intro n x
    omega
  · intro n x
    omega

/-- C1 (witness): the whole-disk request with `--swap 4G` issues exactly the
three `mkpart` calls of the plan, with swap ending at 4609MiB. -/
theorem c1_witness :
    mkpartArgs (partitionHandler c1Args allOkEnv).events =
      [["primary", "1MiB", "513MiB"],
       ["primary", "513MiB", "4609MiB"],
       ["primary", "4609MiB", "100%"]] := by
  have h := (c1_plan c1Args allOkEnv "/dev/sda" (fun _ => rfl) rfl).2.1
    "4G" 4096 rfl (by decide)
  rw [h]
  decide

/-! ## C7 — manual mode issues no signature-wipe / table-write commands -/

/-- C7: for a manual-mode request (no `--disk`), no event of the partition
stage is a `wipefs` or `parted` invocation (so no `mklabel`, `mkpart` or
`set` either) — only format, mount and swap activation commands are
issued. -/
theorem c7_manual_no_table (a : Args) (e : Env) (hd : a.disk = none) :
    ∀ ev ∈ (partitionHandler a e).events, isTableCmd ev = false := by
  have hra : resolvedArgs a = a := by simp [resolvedArgs, hd]
  unfold partitionHandler
  rw [hd, hra]
  rcases hrf : a.rootfs with _ | r <;> rcases hb : a.boot with _ | b <;>
    rcases hsw : a.swap with _ | sw <;> rcases he : e.uefi <;>
    simp only [hrf, hb, hsw, he] <;>
    repeat' apply forall_mem_seq
  all_goals intro ev hev
  all_goals simp [runHost, Out.skip] at hev
  all_goals try subst hev
  all_goals rfl

/-- C7 (witness): the concrete manual request on `/dev/sdb3`. -/
theorem c7_witness :
    ((partitionHandler (manualArgs "/dev/sdb3") allOkEnv).events.all
      (fun ev => !isTableCmd ev)) = true := by
  rw [List.all_eq_true]
  intro ev hev
  simp [c7_manual_no_table (manualArgs "/dev/sdb3") allOkEnv rfl ev hev]

/-! ## C4 — the safety gate stops everything destructive -/

/-- C4: when the gate is active (`--i-am-very-stupid` absent) and the typed
answer is not the literal token `YES`, the whole run — cleanup included —
issues no partition-table, signature-wipe, format, mount or swap-activation
command. -/
theorem c4_gate (a : Args) (e : Env) (h1 : a.iAmVeryStupid = false)
    (h2 : e.userInput ≠ "YES") :
    ∀ ev ∈ (runFull a e).events, isDiskTouchingCmd ev = false := by
  have hs : safetyCheck a e = ⟨[], false⟩ := by
    simp [safetyCheck, h1, h2]
  have hpre : preBootloader a e = ⟨(welcome a).events, false⟩ := by
    unfold preBootloader
    rw [hs]
    simp [Out.seq, welcome]
  have hpipe : pipelineOut a e = ⟨(welcome a).events, false⟩ := by
    unfold pipelineOut
    rw [hpre]
    simp [Out.seq]
  intro ev hev
  rw [runFull] at hev
  simp only [hpipe] at hev
  rcases List.mem_append.mp hev with h | h
  · rw [welcome] at h
    simp at h
    rcases h with h | ⟨_, h⟩ <;> (subst h; rfl)
  · simp [cleanupStage, runHost] at h
    subst h
    rfl

/-- C4 (witness): the concrete refused run issues no disk-touching
command. -/
theorem c4_witness :
    ((runFull c4Args c4Env).events.all (fun ev => !isDiskTouchingCmd ev)) = true := by
  rw [List.all_eq_true]
  intro ev hev
  simp [c4_gate c4Args c4Env rfl (by decide) ev hev]

/-! ## C5 — bootloader failure semantics -/

theorem installBootloader_fails (a : Args) (e : Env)
    (h : e.chrootOk (grubInstallLine a e) = false) :
    (installBootloader a e).ok = false := by
  unfold installBootloader
  split <;> simp [Out.seq_ok, runChrootStr, h]

/-- C5 (counterexample): a concrete run in which everything up to the
bootloader stage succeeds and `grub-install` fails: the failed grub event is
in the trace, the pipeline aborts (non-zero exit), and `finalize`'s
`systemd-machine-id-setup` is never reached — contradicting the claim that
the run still reaches Finalize. -/
theorem c5_counterexample :
    (preBootloader c5Args c5Env).ok = true ∧
    Event.chroot genericGrubLine ∈ (runFull c5Args c5Env).events ∧
    Event.chroot "systemd-machine-id-setup" ∉ (runFull c5Args c5Env).events ∧
    (runFull c5Args c5Env).ok = false := by
  decide

/-- C5 (amended): a bootloader installation failure is not swallowed but it
*does* abort the pipeline: the run's trace is exactly the pre-bootloader
events, the bootloader-stage events and then cleanup — the Finalize stage
contributes nothing — and the run terminates with a failure outcome
(non-zero exit). -/
theorem c5_amended (a : Args) (e : Env)
    (h1 : (preBootloader a e).ok = true)
    (h2 : e.chrootOk (grubInstallLine (resolvedArgs a) e) = false) :
    (runFull a e).ok = false ∧
    (runFull a e).events =
      (preBootloader a e).events ++
        ((installBootloader (resolvedArgs a) e).events ++ (cleanupStage e).events) := by
  have hb := installBootloader_fails (resolvedArgs a) e h2
  have hseq : (preBootloader a e).seq (installBootloader (resolvedArgs a) e) =
      ⟨(preBootloader a e).events ++ (installBootloader (resolvedArgs a) e).events,
        false⟩ := by
    simp [Out.seq, h1, hb]
  have hpipe : pipelineOut a e =
      ⟨(preBootloader a e).events ++ (installBootloader (resolvedArgs a) e).events,
        false⟩ := by
    unfold pipelineOut
    rw [hseq, Out.seq_of_not_ok _ rfl]
  exact ⟨by simp [runFull, hpipe], by simp [runFull, hpipe]⟩

/-- C5 (witness): the amended statement at the concrete
grub-install-fails scenario. -/
theorem c5_witness :
    (runFull c5Args c5Env).ok = false ∧
    (runFull c5Args c5Env).events =
      (preBootloader c5Args c5Env).events ++
        ((installBootloader (resolvedArgs c5Args) c5Env).events ++
          (cleanupStage c5Env).events) :=
  c5_amended c5Args c5Env (by decide) (by decide)

/-! ## C8 — chroot command rendering and shell parsing

First the generic round trip: the lexer run over `shJoinL`-rendered
arguments always recovers exactly the argument vector. -/

theorem uint32EqOfToNat {a b : UInt32} (h : a.toNat = b.toNat) : a = b := by
  cases a with
  | mk v1 =>
    cases b with
    | mk v2 =>
      simp [UInt32.toNat] at h
      congr 1
      exact BitVec.eq_of_toNat_eq h

theorem charEqOfToNat {c d : Char} (h : c.toNat = d.toNat) : c = d :=
  Char.ext (uint32EqOfToNat h)

theorem shSafe_facts {c : Char} (h : isShSafe c = true) :
    c.toNat ≠ 32 ∧ c.toNat ≠ 59 ∧ c.toNat ≠ 124 ∧ c.toNat ≠ 39 ∧
      c.toNat ≠ 34 := by
  simp only [isShSafe, Bool.or_eq_true, Bool.and_eq_true, decide_eq_true_eq] at h
  rcases h with ((((((((((((h | h) | h) | h) | h) | h) | h) | h) | h) | h) | h) | h) | h) <;>
    omega

theorem shLex_out_safe {c : Char} (h : isShSafe c = true) (acc cs : List Char) :
    shLex .out acc (c :: cs) = shLex .word [c] cs := by
  obtain ⟨h32, h59, h124, h39, h34⟩ := shSafe_facts h
  simp [shLex, h32, h59, h124, h39, h34, h]

theorem shLex_word_safe {c : Char} (h : isShSafe c = true) (acc cs : List Char) :
    shLex .word acc (c :: cs) = shLex .word (acc ++ [c]) cs := by
  obtain ⟨h32, h59, h124, h39, h34⟩ := shSafe_facts h
  simp [shLex, h32, h59, h124, h39, h34, h]

theorem shLex_word_spc (acc cs : List Char) :
    shLex .word acc (spc :: cs) =
      (shLex .out [] cs).map (fun ts => .word acc :: ts) := rfl

theorem shLex_out_sq (acc cs : List Char) :
    shLex .out acc (sq :: cs) = shLex .insq [] cs := rfl

theorem shLex_word_sq (acc cs : List Char) :
    shLex .word acc (sq :: cs) = shLex .insq acc cs := rfl

theorem shLex_insq_sq (acc cs : List Char) :
    shLex .insq acc (sq :: cs) = shLex .word acc cs := rfl

theorem shLex_insq_other {c : Char} (h : c.toNat ≠ 39) (acc cs : List Char) :
    shLex .insq acc (c :: cs) = shLex .insq (acc ++ [c]) cs := by
  simp [shLex, h]

theorem shLex_word_dquo (acc cs : List Char) :
    shLex .word acc (dquo :: cs) = shLex .indq acc cs := rfl

theorem shLex_indq_dquo (acc cs : List Char) :
    shLex .indq acc (dquo :: cs) = shLex .word acc cs := rfl

theorem shLex_indq_sq (acc cs : List Char) :
    shLex .indq acc (sq :: cs) = shLex .indq (acc ++ [sq]) cs := rfl

theorem escSq_sq (t : List Char) :
    escSq (sq :: t) = sq :: dquo :: sq :: dquo :: sq :: escSq t := rfl

theorem escSq_other {c : Char} (h : c.toNat ≠ 39) (t : List Char) :
    escSq (c :: t) = c :: escSq t := by
  simp [escSq, h]

theorem shLex_word_safeRun : ∀ a : List Char, a.all isShSafe = true →
    ∀ acc rest, shLex .word acc (a ++ rest) = shLex .word (acc ++ a) rest := by
  intro a
  induction a with
  | nil => intro _ acc rest; simp
  | cons c t ih =>
      intro h acc rest
      simp only [List.all_cons, Bool.and_eq_true] at h
      rw [List.cons_append, shLex_word_safe h.1, ih h.2]
      rw [List.append_assoc]
      rfl

theorem shLex_insq_escSq : ∀ (a acc rest : List Char),
    shLex .insq acc (escSq a ++ (sq :: rest)) = shLex .word (acc ++ a) rest := by
  intro a
  induction a with
  | nil => intro acc rest; simp [escSq, shLex_insq_sq]
  | cons c t ih =>
      intro acc rest
      by_cases hc : c.toNat = 39
      · have hceq : c = sq := charEqOfToNat (by rw [hc]; rfl)
        subst hceq
        rw [escSq_sq]
        simp only [List.cons_append]
        rw [shLex_insq_sq, shLex_word_dquo, shLex_indq_sq, shLex_indq_dquo,
          shLex_word_sq, ih]
        rw [List.append_assoc]
        rfl
      · rw [escSq_other hc]
        rw [List.cons_append, shLex_insq_other hc, ih]
        rw [List.append_assoc]
        rfl

theorem shLex_out_quote (a rest : List Char) :
    shLex .out [] (shQuoteL a ++ rest) = shLex .word a rest := by
  by_cases hne : a = []
  · subst hne
    rfl
  · by_cases hsafe : a.all isShSafe = true
    · have hq : shQuoteL a = a := by
        simp [shQuoteL, hne, hsafe]
      rw [hq]
      cases a with
      | nil => exact absurd rfl hne
      | cons c t =>
          have hall := hsafe
          simp only [List.all_cons, Bool.and_eq_true] at hall
          rw [List.cons_append, shLex_out_safe hall.1,
            shLex_word_safeRun t hall.2 [c] rest]
          rfl
    · have hq : shQuoteL a = sq :: (escSq a ++ [sq]) := by
        simp [shQuoteL, hne, hsafe]
      rw [hq, List.cons_append, shLex_out_sq, List.append_assoc]
      have : ([sq] ++ rest) = sq :: rest := rfl
      rw [this, shLex_insq_escSq]
      rfl

theorem shTokenize_join : ∀ xs : List (List Char),
    shTokenize (shJoinL xs) = some (xs.map ShTok.word) := by
  intro xs
  induction xs with
  | nil => rfl
  | cons a rest ih =>
      cases rest with
      | nil =>
          show shLex .out [] (shQuoteL a) = some [ShTok.word a]
          have h := shLex_out_quote a []
          rw [List.append_nil] at h
          rw [h]
          rfl
      | cons b rest2 =>
          show shLex .out [] (shQuoteL a ++ spc :: shJoinL (b :: rest2)) = _
          rw [shLex_out_quote, shLex_word_spc]
          rw [show shLex .out [] (shJoinL (b :: rest2)) =
              some ((b :: rest2).map ShTok.word) from ih]
          rfl

/-- C8 (amended): for every chroot command given as an *argument vector* the
claim holds: `run_cmd`'s rendering `shJoin` is parsed by the chroot shell
back into exactly the intended words — every argument, whatever
metacharacters it contains, is one word, and the line contains no command
separators.  (Commands given as pre-formed *strings*, such as the chpasswd
line with the interpolated password, get no such protection — see the
counterexample.) -/
theorem c8_amended (argv : List String) :
    shTokenize (shJoin argv).data =
      some (argv.map (fun s => ShTok.word s.data)) ∧
    semiCount (argv.map (fun s => ShTok.word s.data)) = 0 := by
  constructor
  · rw [show (shJoin argv).data = shJoinL (argv.map String.data) from rfl]
    rw [shTokenize_join, List.map_map]
    rfl
  · rw [semiCount, List.countP_eq_zero]
    intro t ht
    rcases List.mem_map.mp ht with ⟨s, _, rfl⟩
    simp

/-- C8 (counterexample): the chpasswd invocation renders the password into
the `/bin/sh -c` line unquoted.  A benign password yields the intended
single pipeline (no separators); the crafted password `evilPwd` yields a
line the shell parses as three commands — `wipefs --all /dev/sda` is
injected — so the rendered line does not parse back to the intended
argument vector. -/
theorem c8_counterexample :
    (shTokenize (chpasswdRootLine "hunter2").data).map semiCount = some 0 ∧
    shTokenize (chpasswdRootLine evilPwd).data =
      some [.word "echo".data, .word "root:x".data, .semi,
            .word "wipefs".data, .word "--all".data, .word "/dev/sda".data, .semi,
            .word "echo".data, .word "y".data, .pipe, .word "chpasswd".data] ∧
    (shTokenize (chpasswdRootLine evilPwd).data).map semiCount = some 2 := by
  decide

/-! ## C10 — the hostname written into the target -/

theorem strDataAppend (s t : String) : (s ++ t).data = s.data ++ t.data := by
  cases s; cases t; rfl

theorem isPrefixOfAppend (a b : List Char) : a.isPrefixOf (a ++ b) = true := by
  rw [ List.isPrefixOf_iff_prefix]
  exact List.prefix_append a b

theorem presetPath_ne_hostnamePath (stem : String) :
    ((presetDir ++ "/" ++ stem ++ ".preset") == hostnamePath) = false := by
  rw [beq_eq_false_iff_ne]
  intro h
  have hd := congrArg String.data h
  rw [strDataAppend, strDataAppend, strDataAppend] at hd
  have hp : (presetDir.data ++ "/".data).isPrefixOf hostnamePath.data = true := by
    rw [← hd, List.append_assoc]
    exact isPrefixOfAppend _ _
  exact absurd hp (by decide)

theorem nhw_host (argv : List String) : NotHostnameWrite (.host argv) :=
  fun _ _ h => nomatch h

theorem nhw_chroot (l : String) : NotHostnameWrite (.chroot l) :=
  fun _ _ h => nomatch h

theorem nhw_copyFile (s d : String) : NotHostnameWrite (.copyFile s d) :=
  fun _ _ h => nomatch h

theorem nhw_chmodFile (p : String) : NotHostnameWrite (.chmodFile p) :=
  fun _ _ h => nomatch h

theorem nhw_removeFile (p : String) : NotHostnameWrite (.removeFile p) :=
  fun _ _ h => nomatch h

theorem nhw_sysClear : NotHostnameWrite .sysClear :=
  fun _ _ h => nomatch h

theorem nhw_fwrite {p : String} (hp : (p == hostnamePath) = false) (c : String) :
    NotHostnameWrite (.fwrite p c) := by
  intro p' c' h
  injection h with h1 _
  rw [← h1]
  exact hp

theorem nhw_runChrootStr (e : Env) (l : String) (b c : Bool) :
    ∀ ev ∈ (runChrootStr e l b c).events, NotHostnameWrite ev := by
  intro ev hev
  simp [runChrootStr] at hev
  subst hev
  exact nhw_chroot _

theorem nhw_welcome (a : Args) : ∀ ev ∈ (welcome a).events, NotHostnameWrite ev := by
  intro ev hev
  simp [welcome] at hev
  rcases hev with h | ⟨_, h⟩ <;> subst h
  · exact nhw_sysClear
  · exact nhw_host _

theorem nhw_safetyCheck (a : Args) (e : Env) :
    ∀ ev ∈ (safetyCheck a e).events, NotHostnameWrite ev := by
  intro ev hev
  unfold safetyCheck at hev
  split at hev <;> simp [Out.skip] at hev

theorem nhw_ensureNetworkLogic (a : Args) (e : Env) :
    ∀ ev ∈ (ensureNetworkLogic a e).events, NotHostnameWrite ev := by
  intro ev hev
  unfold ensureNetworkLogic at hev
  split at hev
  · split at hev
    · simp [Out.skip] at hev
    · split at hev
      · simp at hev; subst hev; exact nhw_host _
      · simp at hev
  · simp [Out.skip] at hev

theorem nhw_swapMkpart (a : Args) (e : Env) (d : String) :
    ∀ ev ∈ (swapMkpart a e d).1.events, NotHostnameWrite ev := by
  unfold swapMkpart
  rcases hsw : a.swap with _ | s <;> simp only [hsw]
  · intro ev hev; simp [Out.skip] at hev
  · rcases hp : autoSwapMiB s with _ | n <;> simp only [hp]
    · intro ev hev; simp at hev
    · intro ev hev; simp [runHost] at hev; subst hev; exact nhw_host _

theorem nhw_autoPartitionDisk (a : Args) (e : Env) (d : String) :
    ∀ ev ∈ (autoPartitionDisk a e d).events, NotHostnameWrite ev := by
  unfold autoPartitionDisk
  repeat' apply forall_mem_seq
  all_goals first
    | exact nhw_swapMkpart a e d
    | (intro ev hev; simp [runHost] at hev; subst hev; exact nhw_host _)

theorem nhw_partitionHandler (a : Args) (e : Env) :
    ∀ ev ∈ (partitionHandler a e).events, NotHostnameWrite ev := by
  unfold partitionHandler
  rcases hd : a.disk with _ | d <;>
    rcases hrf : (resolvedArgs a).rootfs with _ | r <;>
    rcases hb : (resolvedArgs a).boot with _ | b <;>
    rcases hsw : (resolvedArgs a).swap with _ | sw <;>
    rcases he : e.uefi <;>
    simp only [hd, hrf, hb, hsw, he] <;>
    repeat' apply forall_mem_seq
  all_goals first
    | exact nhw_swapMkpart a e _
    | (intro ev hev; simp [runHost] at hev; try subst hev; try exact nhw_host _)

theorem nhw_genFstabChimera (a : Args) (e : Env) :
    ∀ ev ∈ (genFstabChimera a e).events, NotHostnameWrite ev := by
  intro ev hev
  unfold genFstabChimera at hev
  split at hev
  · simp at hev
    rcases hev with h | h <;> subst h
    · exact nhw_host _
    · exact nhw_fwrite (by decide) _
  · rcases hrf : a.rootfs with _ | r <;> simp only [hrf] at hev
    · simp at hev
    · simp at hev
      subst hev
      exact nhw_fwrite (by decide) _

theorem nhw_installArchPacstrap (a : Args) (e : Env) :
    ∀ ev ∈ (installArchPacstrap a e).events, NotHostnameWrite ev := by
  unfold installArchPacstrap
  apply forall_mem_seq
  · intro ev hev; simp [runHost] at hev; subst hev; exact nhw_host _
  · intro ev hev
    simp at hev
    rcases hev with h | h <;> subst h
    · exact nhw_host _
    · exact nhw_fwrite (by decide) _

theorem nhw_installDebianDebootstrap (a : Args) (e : Env) :
    ∀ ev ∈ (installDebianDebootstrap a e).events, NotHostnameWrite ev := by
  unfold installDebianDebootstrap
  apply forall_mem_seq
  apply forall_mem_seq
  · intro ev hev; simp [runHost] at hev; subst hev; exact nhw_host _
  · exact nhw_genFstabChimera a e
  · intro ev hev; simp at hev; subst hev; exact nhw_fwrite (by decide) _

theorem nhw_installBase (a : Args) (e : Env) :
    ∀ ev ∈ (installBase a e).events, NotHostnameWrite ev := by
  unfold installBase
  split
  · exact nhw_installArchPacstrap a e
  · split
    · exact nhw_installDebianDebootstrap a e
    · split
      · intro ev hev; simp [Out.skip] at hev
      · intro ev hev; simp at hev; subst hev; exact nhw_host _

theorem nhw_setupChrootMounts (e : Env) :
    ∀ ev ∈ (setupChrootMounts e).events, NotHostnameWrite ev := by
  intro ev hev
  unfold setupChrootMounts at hev
  split at hev
  · simp [Out.skip] at hev
  · simp at hev
    rcases hev with h | h | h | h | h | h | h <;> subst h <;>
      first
        | exact nhw_host _
        | exact nhw_copyFile _ _

theorem nhw_chrootMountsStage (a : Args) (e : Env) :
    ∀ ev ∈ (chrootMountsStage a e).events, NotHostnameWrite ev := by
  unfold chrootMountsStage
  split
  · split
    · exact nhw_setupChrootMounts e
    · intro ev hev; simp [Out.skip] at hev
  · intro ev hev; simp [Out.skip] at hev

theorem nhw_tzStage (a : Args) (e : Env) :
    ∀ ev ∈ (tzStage a e).events, NotHostnameWrite ev := by
  unfold tzStage
  rcases htz : a.timezone with _ | tz <;> simp only [htz]
  · intro ev hev; simp [Out.skip] at hev
  · split
    · apply forall_mem_seq <;> exact nhw_runChrootStr e _ _ _
    · intro ev hev; simp [Out.skip] at hev

theorem nhw_offlineKernelBlock (e : Env) :
    ∀ ev ∈ (offlineKernelBlock e).events, NotHostnameWrite ev := by
  unfold offlineKernelBlock
  repeat' apply forall_mem_seq
  · rcases hk : e.kernelSrc with _ | src <;> simp only [hk]
    · intro ev hev; simp [Out.skip] at hev
    · intro ev hev
      simp at hev
      rcases hev with h | h <;> subst h
      · exact nhw_copyFile _ _
      · exact nhw_chmodFile _
  · split
    · intro ev hev
      simp only [List.mem_flatten, List.mem_map] at hev
      obtain ⟨l, ⟨x, _, heq⟩, hl⟩ := hev
      subst heq
      split at hl
      · simp at hl
        subst hl
        exact nhw_fwrite (presetPath_ne_hostnamePath x.1) _
      · simp at hl
    · intro ev hev; simp [Out.skip] at hev
  · rcases hc : e.mkinitcpioConf with _ | c <;> simp only [hc]
    · intro ev hev; simp [Out.skip] at hev
    · split
      · intro ev hev; simp at hev; subst hev; exact nhw_fwrite (by decide) _
      · intro ev hev; simp [Out.skip] at hev
  · split
    · intro ev hev; simp at hev; subst hev; exact nhw_removeFile _
    · intro ev hev; simp [Out.skip] at hev
  · exact nhw_runChrootStr e _ _ _

theorem nhw_balBlock (e : Env) :
    ∀ ev ∈ (balBlock e).events, NotHostnameWrite ev := by
  unfold balBlock
  apply forall_mem_seq <;> exact nhw_runChrootStr e _ _ _

theorem nhw_configureBranch (a : Args) (e : Env) :
    ∀ ev ∈ (configureBranch a e).events, NotHostnameWrite ev := by
  unfold configureBranch
  split
  · repeat' apply forall_mem_seq
    all_goals first
      | exact nhw_runChrootStr e _ _ _
      | (split <;>
          first
            | exact nhw_offlineKernelBlock e
            | exact nhw_balBlock e
            | (intro ev hev; simp [Out.skip] at hev))
  · split
    · repeat' apply forall_mem_seq
      all_goals first
        | exact nhw_runChrootStr e _ _ _
        | (split <;>
            first
              | exact nhw_setupChrootMounts e
              | (intro ev hev; simp [Out.skip] at hev))
    · intro ev hev; simp [Out.skip] at hev

theorem nhw_setupUsers (a : Args) (e : Env) :
    ∀ ev ∈ (setupUsers a e).events, NotHostnameWrite ev := by
  unfold setupUsers
  apply forall_mem_seq
  · rcases hp : a.passwd with _ | pw <;> simp only [hp] <;>
      exact nhw_runChrootStr e _ _ _
  · rcases hu : a.user with _ | u <;> simp only [hu]
    · intro ev hev; simp [Out.skip] at hev
    · repeat' apply forall_mem_seq
      all_goals first
        | exact nhw_runChrootStr e _ _ _
        | (rcases hp : a.passwd with _ | pw <;> simp only [hp] <;>
            first
              | exact nhw_runChrootStr e _ _ _
              | (intro ev hev; simp [Out.skip] at hev))

theorem nhw_installBalExtras (a : Args) (e : Env) :
    ∀ ev ∈ (installBalExtras a e).events, NotHostnameWrite ev := by
  unfold installBalExtras
  split
  · split
    · intro ev hev; simp [Out.skip] at hev
    · apply forall_mem_seq <;> exact nhw_runChrootStr e _ _ _
  · intro ev hev; simp [Out.skip] at hev

theorem nhw_runCustomScripts (a : Args) (e : Env) :
    ∀ ev ∈ (runCustomScripts a e).events, NotHostnameWrite ev := by
  unfold runCustomScripts
  rcases hr : a.run with _ | c <;> simp only [hr]
  · intro ev hev; simp [Out.skip] at hev
  · exact nhw_runChrootStr e _ _ _

theorem nhw_grubEditEvents (a : Args) (e : Env) :
    ∀ ev ∈ grubEditEvents a e, NotHostnameWrite ev := by
  intro ev hev
  unfold grubEditEvents at hev
  split at hev
  · simp at hev; subst hev; exact nhw_fwrite (by decide) _
  · simp at hev

theorem nhw_installBootloader (a : Args) (e : Env) :
    ∀ ev ∈ (installBootloader a e).events, NotHostnameWrite ev := by
  unfold installBootloader
  split <;> repeat' apply forall_mem_seq
  all_goals first
    | exact nhw_grubEditEvents a e
    | exact nhw_runChrootStr e _ _ _

theorem nhw_finalizeStage (e : Env) :
    ∀ ev ∈ (finalizeStage e).events, NotHostnameWrite ev :=
  nhw_runChrootStr e _ _ _

theorem nhw_cleanupStage (e : Env) :
    ∀ ev ∈ (cleanupStage e).events, NotHostnameWrite ev := by
  intro ev hev
  simp [cleanupStage, runHost] at hev
  subst hev
  exact nhw_host _

theorem nhw_to_contentOk {t : String} {ev : Event} (h : NotHostnameWrite ev) :
    HostnameContentOk t ev := by
  intro p c hev hp
  rw [h p c hev] at hp
  exact absurd hp (by simp)

theorem contentOk_hnEvent (b : Args) :
    HostnameContentOk (targetOs b ++ "\n") (hostnameWriteEvent b) := by
  intro p c hev _
  unfold hostnameWriteEvent at hev
  injection hev with _ h2
  exact h2.symm

theorem contentOk_configureSystem (b : Args) (e : Env) :
    ∀ ev ∈ (configureSystem b e).events,
      HostnameContentOk (targetOs b ++ "\n") ev := by
  unfold configureSystem
  apply forall_mem_seq
  apply forall_mem_seq
  · intro ev hev
    simp at hev
    subst hev
    exact contentOk_hnEvent b
  · intro ev hev
    exact nhw_to_contentOk (nhw_tzStage b e ev hev)
  · intro ev hev
    exact nhw_to_contentOk (nhw_configureBranch b e ev hev)

theorem resolvedArgs_target (a : Args) : targetOs (resolvedArgs a) = targetOs a := by
  unfold resolvedArgs
  rcases hd : a.disk with _ | d <;> simp only [hd]
  split <;> rfl

theorem contentOk_runFull (a : Args) (e : Env) :
    ∀ ev ∈ (runFull a e).events, HostnameContentOk (targetOs a ++ "\n") ev := by
  intro ev hev
  simp only [runFull] at hev
  rcases List.mem_append.mp hev with h | h
  · unfold pipelineOut at h
    rcases Out.seq_mem h with h | h
    · rcases Out.seq_mem h with h | h
      · unfold preBootloader at h
        rcases Out.seq_mem h with h | h
        · rcases Out.seq_mem h with h | h
          · rcases Out.seq_mem h with h | h
            · rcases Out.seq_mem h with h | h
              · rcases Out.seq_mem h with h | h
                · rcases Out.seq_mem h with h | h
                  · rcases Out.seq_mem h with h | h
                    · rcases Out.seq_mem h with h | h
                      · rcases Out.seq_mem h with h | h
                        · exact nhw_to_contentOk (nhw_welcome a ev h)
                        · exact nhw_to_contentOk (nhw_safetyCheck a e ev h)
                      · exact nhw_to_contentOk (nhw_ensureNetworkLogic a e ev h)
                    · exact nhw_to_contentOk (nhw_partitionHandler a e ev h)
                  · exact nhw_to_contentOk (nhw_installBase (resolvedArgs a) e ev h)
                · exact nhw_to_contentOk (nhw_chrootMountsStage a e ev h)
              · have := contentOk_configureSystem (resolvedArgs a) e ev h
                rw [resolvedArgs_target] at this
                exact this
            · exact nhw_to_contentOk (nhw_setupUsers (resolvedArgs a) e ev h)
          · exact nhw_to_contentOk (nhw_installBalExtras (resolvedArgs a) e ev h)
        · exact nhw_to_contentOk (nhw_runCustomScripts (resolvedArgs a) e ev h)
      · exact nhw_to_contentOk (nhw_installBootloader (resolvedArgs a) e ev h)
    · exact nhw_to_contentOk (nhw_finalizeStage e ev h)
  · exact nhw_to_contentOk (nhw_cleanupStage e ev h)

theorem nhw_nil {evs : List Event} (h : ∀ ev ∈ evs, NotHostnameWrite ev) :
    hostnameWrites evs = [] := by
  rw [hostnameWrites, List.filterMap_eq_nil_iff]
  intro ev hev
  rcases ev with argv | l | ⟨p, c⟩ | ⟨s, d⟩ | p | p | _
  all_goals try rfl
  have hp := h _ hev p c rfl
  simp [hnContentOf, hp]

theorem hostnameWrites_seq (x y : Out) :
    hostnameWrites (x.seq y).events =
      hostnameWrites x.events ++
        (if x.ok = true then hostnameWrites y.events else []) := by
  rcases hx : x.ok
  · simp [Out.seq, hx, hostnameWrites]
  · simp [Out.seq, hx, hostnameWrites, List.filterMap_append]

theorem hostnameWrites_configureSystem (b : Args) (e : Env) :
    hostnameWrites (configureSystem b e).events = [targetOs b ++ "\n"] := by
  unfold configureSystem
  rw [hostnameWrites_seq, hostnameWrites_seq]
  rw [nhw_nil (nhw_tzStage b e), nhw_nil (nhw_configureBranch b e)]
  have h1 : hostnameWrites [hostnameWriteEvent b] = [targetOs b ++ "\n"] := by
    simp [hostnameWrites, hostnameWriteEvent, hnContentOf]
  rw [h1]
  split <;> split <;> simp

/-- C10: in every run — whatever the arguments and environment — any write
to the target's `/etc/hostname` has content exactly the lowercased
`--target` identifier followed by a newline; the configuration stage
performs exactly one such write; and the CLI exposes no hostname option, so
no user-chosen hostname can ever be written. -/
theorem c10_hostname (a : Args) (e : Env) :
    (∀ c ∈ hostnameWrites (runFull a e).events, c = targetOs a ++ "\n") ∧
    hostnameWrites (configureSystem (resolvedArgs a) e).events =
      [targetOs a ++ "\n"] ∧
    "--hostname" ∉ chimeraCliOptions := by
  refine ⟨?_, ?_, by decide⟩
  · intro c hc
    rw [hostnameWrites] at hc
    obtain ⟨ev, hev, hsome⟩ := List.mem_filterMap.mp hc
    have hok := contentOk_runFull a e ev hev
    rcases ev with argv | l | ⟨p, cc⟩ | ⟨s, d⟩ | p | p | _ <;>
      simp [hnContentOf] at hsome
    rcases hsome with ⟨hp, hcc⟩
    exact (hcc ▸ hok p cc rfl (by simp [hp]))
  · have h2 := hostnameWrites_configureSystem (resolvedArgs a) e
    rw [resolvedArgs_target] at h2
    exact h2

end Chimera
